import Mathlib

/-!
Verification of the CRT (cathode-ray tube) beam simulation engine:
voltage sources, piecewise deflection-field integration of the electron,
screen-hit detection, and the bounded phosphor trace buffer.

The development shallowly embeds the physics/numerical core of the two
reference implementations (`Simul.py` and `simul_prueba.py`).  Machine
floats are modelled by the real numbers, `math.sqrt`/`math.sin` by
`Real.sqrt`/`Real.sin`, and Python deques with a `maxlen` by lists with
a drop-oldest push (`pushBounded`).  Wall-clock readings taken by the
frame loop (`pygame.time.Clock.get_time`) are modelled as explicit
`elapsed` inputs to the per-frame transition function.
-/

namespace CRT

open Classical
noncomputable section

/-- Control mode of the simulation: `'manual'` or `'lissajous'`. -/
inductive Mode where
| manual
| lissajous
deriving DecidableEq

/-- The electron's kinematic state (class `Electron` in both files):
position, velocity, the drawn trajectory (a deque with `maxlen=1000`),
and the flag recording whether the one-time axial impulse was applied. -/
structure Electron where
  x : ℝ
  y : ℝ
  z : ℝ
  vx : ℝ
  vy : ℝ
  vz : ℝ
  path : List (ℝ × ℝ × ℝ)
  initial_acceleration_done : Bool

/-- One phosphor trace event, as appended in `update_physics`:
screen-plane coordinates, simulated timestamp (ms), brightness. -/
structure TraceEvent where
  x : ℝ
  y : ℝ
  time : ℝ
  brightness : ℝ

/-- The slider values (configuration) of the control panel. -/
structure Sliders where
  acceleration_voltage : ℝ
  persistence : ℝ
  vertical_voltage : ℝ
  horizontal_voltage : ℝ
  vert_amplitude : ℝ
  vert_frequency : ℝ
  vert_phase : ℝ
  horiz_amplitude : ℝ
  horiz_frequency : ℝ
  horiz_phase : ℝ

/-- Push onto a Python `deque(maxlen := m)`: append on the right and, if the
length would exceed `m`, drop elements from the left (oldest first). -/
def pushBounded {α : Type} (maxlen : ℕ) (l : List α) (a : α) : List α :=
  let l2 := l ++ [a]
  l2.drop (l2.length - maxlen)

namespace Simul

/-- Constant `ELECTRON_CHARGE` of `Simul.py` (the positive magnitude). -/
def ELECTRON_CHARGE : ℝ := 1.602e-19

/-- Constant `ELECTRON_MASS` of `Simul.py`. -/
def ELECTRON_MASS : ℝ := 9.109e-31

/-- Constant `SCREEN_SIZE` (screen side length, 20 cm). -/
def SCREEN_SIZE : ℝ := 0.20

/-- Constant `PLATE_SEPARATION` (2 cm). -/
def PLATE_SEPARATION : ℝ := 0.02

/-- Constant `PLATE_LENGTH` (5 cm). -/
def PLATE_LENGTH : ℝ := 0.05

/-- Constant `DISTANCE_TO_SCREEN` (15 cm). -/
def DISTANCE_TO_SCREEN : ℝ := 0.15

/-- Constant `DISTANCE_BETWEEN_PLATES` (3 cm). -/
def DISTANCE_BETWEEN_PLATES : ℝ := 0.03

/-- Constant `DISTANCE_GUN_TO_PLATES` (5 cm). -/
def DISTANCE_GUN_TO_PLATES : ℝ := 0.05

/-- `Electron.reset` of `Simul.py`: origin just past the gun, zero
velocity, fresh path, impulse flag cleared. -/
def Electron.reset : Electron :=
  { x := 0, y := 0, z := 0.001, vx := 0, vy := 0, vz := 0,
    path := [], initial_acceleration_done := false }

/-- `Electron.update` of `Simul.py` lines 119-153: one-time axial impulse,
transverse field impulses gated by the plate regions, then explicit Euler
position update (velocity before position). -/
def Electron.update (e : Electron)
    (dt acceleration_voltage vertical_voltage horizontal_voltage : ℝ) : Electron :=
  let vz1 : ℝ :=
    if e.initial_acceleration_done = false ∧ 0 < |acceleration_voltage| then
      Real.sqrt (2 * ELECTRON_CHARGE * |acceleration_voltage| / ELECTRON_MASS)
    else e.vz
  let done1 : Bool :=
    if e.initial_acceleration_done = false ∧ 0 < |acceleration_voltage| then true
    else e.initial_acceleration_done
  let vertical_plate_start := DISTANCE_GUN_TO_PLATES
  let vertical_plate_end := vertical_plate_start + PLATE_LENGTH
  let horizontal_plate_start := vertical_plate_end + DISTANCE_BETWEEN_PLATES
  let horizontal_plate_end := horizontal_plate_start + PLATE_LENGTH
  let vy1 : ℝ :=
    if vertical_plate_start ≤ e.z ∧ e.z ≤ vertical_plate_end ∧
        |e.y| < PLATE_SEPARATION / 2 then
      e.vy + -ELECTRON_CHARGE * (vertical_voltage / PLATE_SEPARATION) / ELECTRON_MASS * dt
    else e.vy
  let vx1 : ℝ :=
    if horizontal_plate_start ≤ e.z ∧ e.z ≤ horizontal_plate_end ∧
        |e.x| < PLATE_SEPARATION / 2 then
      e.vx + -ELECTRON_CHARGE * (horizontal_voltage / PLATE_SEPARATION) / ELECTRON_MASS * dt
    else e.vx
  let x1 := e.x + vx1 * dt
  let y1 := e.y + vy1 * dt
  let z1 := e.z + vz1 * dt
  { x := x1, y := y1, z := z1, vx := vx1, vy := vy1, vz := vz1,
    path := pushBounded 1000 e.path (x1, y1, z1),
    initial_acceleration_done := done1 }

/-- Total gun-to-screen distance used by `has_hit_screen`. -/
def screen_distance : ℝ :=
  DISTANCE_GUN_TO_PLATES + PLATE_LENGTH + DISTANCE_BETWEEN_PLATES +
    PLATE_LENGTH + DISTANCE_TO_SCREEN

/-- `Electron.has_hit_screen` of `Simul.py`. -/
def Electron.has_hit_screen (e : Electron) : Prop :=
  screen_distance ≤ e.z

/-- `Electron.is_within_screen_bounds` of `Simul.py`: both deflections at
most half the screen size, boundary inclusive. -/
def Electron.is_within_screen_bounds (e : Electron) : Prop :=
  |e.x| ≤ SCREEN_SIZE / 2 ∧ |e.y| ≤ SCREEN_SIZE / 2

/-- `get_voltages` of `Simul.py` lines 335-358.  In Lissajous mode the
horizontal axis gets no phase and the vertical axis gets the phase
difference `(vert_phase - horiz_phase)` converted to radians.  Returns
`(vertical, horizontal)`. -/
def get_voltages (mode : Mode) (s : Sliders) (time : ℝ) : ℝ × ℝ :=
  match mode with
  | Mode.manual => (s.vertical_voltage, s.horizontal_voltage)
  | Mode.lissajous =>
    let t := time / 1000
    let Ah := s.horiz_amplitude
    let Av := s.vert_amplitude
    let fh := s.horiz_frequency
    let fv := s.vert_frequency
    let delta := (s.vert_phase - s.horiz_phase) * Real.pi / 180
    let horiz_v := Ah * Real.sin (2 * Real.pi * fh * t)
    let vert_v := Av * Real.sin (2 * Real.pi * fv * t + delta)
    (vert_v, horiz_v)

/-- One iteration of the inner sub-step loop of `update_physics`
(`Simul.py` lines 373-394): advance the electron by `dt = 2e-9`, and on a
screen hit append a trace event when within bounds and reset the
electron. -/
def physicsSubstep (s : Sliders) (vertical_voltage horizontal_voltage tickTime : ℝ)
    (p : Electron × List TraceEvent) : Electron × List TraceEvent :=
  let e1 := Electron.update p.1 2e-9 s.acceleration_voltage vertical_voltage horizontal_voltage
  if Electron.has_hit_screen e1 then
    (Electron.reset,
      if Electron.is_within_screen_bounds e1 then
        pushBounded 5000 p.2
          { x := e1.x, y := e1.y, time := tickTime,
            brightness := min 1 (s.acceleration_voltage / 4000) }
      else p.2)
  else (e1, p.2)

/-- The electron component of `physicsSubstep`, which reads neither the
tick time nor the trace buffer. -/
def electronStep (s : Sliders) (vertical_voltage horizontal_voltage : ℝ)
    (e : Electron) : Electron :=
  let e1 := Electron.update e 2e-9 s.acceleration_voltage vertical_voltage horizontal_voltage
  if Electron.has_hit_screen e1 then Electron.reset else e1

end Simul

/-- The mutable simulation state of `CRTSimulation` that the physics core
reads and writes (mode, simulated clock in ms, electron, trace deque,
pause flag stored as the speed factor). -/
structure SimState where
  mode : Mode
  time : ℝ
  electron : Electron
  screen_traces : List TraceEvent
  simulation_speed : ℝ

namespace Simul

/-- `update_physics` of `Simul.py` lines 360-394.  `elapsed` is the value
returned by `self.clock.get_time()` — a wall-clock reading made inside
the method — modelled as an explicit input. -/
def update_physics (s : Sliders) (elapsed : ℝ) (st : SimState) : SimState :=
  if st.simulation_speed = 0 then st
  else
    let time1 := st.time + elapsed * st.simulation_speed
    let V := get_voltages st.mode s time1
    let p := (physicsSubstep s V.1 V.2 time1)^[100] (st.electron, st.screen_traces)
    { st with time := time1, electron := p.1, screen_traces := p.2 }

/-- One iteration of the main loop (`run`, `Simul.py` lines 802-809):
`update_physics` followed by the fixed `time += 16` when not paused.
Event handling and drawing do not touch the physics state. -/
def frame (s : Sliders) (elapsed : ℝ) (st : SimState) : SimState :=
  let st1 := update_physics s elapsed st
  if 0 < st1.simulation_speed then { st1 with time := st1.time + 16 } else st1

/-- A run of the main loop over a list of per-frame wall-clock readings. -/
def runFrames (s : Sliders) (els : List ℝ) (st : SimState) : SimState :=
  els.foldl (fun st e => frame s e st) st

/-- The effective display intensity of one trace event in
`draw_screen_view` (`Simul.py` lines 609-631), as a fraction of full
scale: `none` when the event is skipped (`age ≥ persistence * 2`),
otherwise `alpha * brightness` with `alpha = max(0.1, 1 - age / (persistence * 2))`. -/
def displayIntensity (persistence tNow : ℝ) (ev : TraceEvent) : Option ℝ :=
  let age := tNow - ev.time
  if age < persistence * 2 then
    some (max 0.1 (1 - age / (persistence * 2)) * ev.brightness)
  else none

end Simul

namespace Prueba

/-- Constant `ELECTRON_CHARGE` of `simul_prueba.py` (the real, negative
charge). -/
def ELECTRON_CHARGE : ℝ := -1.602e-19

/-- Constant `ELECTRON_CHARGE_MAG` of `simul_prueba.py`. -/
def ELECTRON_CHARGE_MAG : ℝ := 1.602e-19

/-- Constant `ELECTRON_MASS` of `simul_prueba.py`. -/
def ELECTRON_MASS : ℝ := 9.109e-31

/-- Constant `SCREEN_SIZE` of `simul_prueba.py`. -/
def SCREEN_SIZE : ℝ := 0.20

/-- Constant `PLATE_SEPARATION` of `simul_prueba.py`. -/
def PLATE_SEPARATION : ℝ := 0.02

/-- Constant `PLATE_LENGTH` of `simul_prueba.py`. -/
def PLATE_LENGTH : ℝ := 0.05

/-- Constant `DISTANCE_TO_SCREEN` of `simul_prueba.py`. -/
def DISTANCE_TO_SCREEN : ℝ := 0.15

/-- Constant `DISTANCE_BETWEEN_PLATES` of `simul_prueba.py`. -/
def DISTANCE_BETWEEN_PLATES : ℝ := 0.03

/-- Constant `DISTANCE_GUN_TO_PLATES` of `simul_prueba.py`. -/
def DISTANCE_GUN_TO_PLATES : ℝ := 0.05

/-- `Electron.update` of `simul_prueba.py` lines 113-147: identical
structure to `Simul.py` but with the opposite field sign convention
(`E = -V / d` multiplied by the negative charge). -/
def Electron.update (e : Electron)
    (dt acceleration_voltage vertical_voltage horizontal_voltage : ℝ) : Electron :=
  let vz1 : ℝ :=
    if e.initial_acceleration_done = false ∧ 0 < |acceleration_voltage| then
      Real.sqrt (2 * ELECTRON_CHARGE_MAG * |acceleration_voltage| / ELECTRON_MASS)
    else e.vz
  let done1 : Bool :=
    if e.initial_acceleration_done = false ∧ 0 < |acceleration_voltage| then true
    else e.initial_acceleration_done
  let v_start := DISTANCE_GUN_TO_PLATES
  let v_end := v_start + PLATE_LENGTH
  let h_start := v_end + DISTANCE_BETWEEN_PLATES
  let h_end := h_start + PLATE_LENGTH
  let vy1 : ℝ :=
    if v_start ≤ e.z ∧ e.z ≤ v_end ∧ |e.y| < PLATE_SEPARATION / 2 then
      e.vy + ELECTRON_CHARGE * (-vertical_voltage / PLATE_SEPARATION) / ELECTRON_MASS * dt
    else e.vy
  let vx1 : ℝ :=
    if h_start ≤ e.z ∧ e.z ≤ h_end ∧ |e.x| < PLATE_SEPARATION / 2 then
      e.vx + ELECTRON_CHARGE * (-horizontal_voltage / PLATE_SEPARATION) / ELECTRON_MASS * dt
    else e.vx
  let x1 := e.x + vx1 * dt
  let y1 := e.y + vy1 * dt
  let z1 := e.z + vz1 * dt
  { x := x1, y := y1, z := z1, vx := vx1, vy := vy1, vz := vz1,
    path := pushBounded 1000 e.path (x1, y1, z1),
    initial_acceleration_done := done1 }

/-- `get_voltages` of `simul_prueba.py` lines 292-303: in Lissajous mode
each axis is an independent sinusoid with its own amplitude, frequency
and phase.  Returns `(vertical, horizontal)`. -/
def get_voltages (mode : Mode) (s : Sliders) (time : ℝ) : ℝ × ℝ :=
  match mode with
  | Mode.manual => (s.vertical_voltage, s.horizontal_voltage)
  | Mode.lissajous =>
    let t := time / 1000
    let vert_v := s.vert_amplitude *
      Real.sin (2 * Real.pi * s.vert_frequency * t + s.vert_phase * Real.pi / 180)
    let horiz_v := s.horiz_amplitude *
      Real.sin (2 * Real.pi * s.horiz_frequency * t + s.horiz_phase * Real.pi / 180)
    (vert_v, horiz_v)

end Prueba

/-- Modelled from the spec: the claimed effective display intensity of a
trace event, `brightness * max(0, 1 - age / (2 * persistenceConstant))`.
Stated for comparison against the code's `Simul.displayIntensity`. -/
def specIntensity (persistence tNow : ℝ) (ev : TraceEvent) : ℝ :=
  ev.brightness * max 0 (1 - (tNow - ev.time) / (2 * persistence))

/-- Modelled from the spec: the claimed per-axis waveform voltage
`A * sin(2 pi f t + phase)` at simulated time `time` ms, with the axis's
own phase in degrees.  Stated for comparison against both
`get_voltages` implementations. -/
def specAxisVoltage (amplitude frequency phaseDeg time : ℝ) : ℝ :=
  amplitude * Real.sin (2 * Real.pi * frequency * (time / 1000) + phaseDeg * Real.pi / 180)

/-- The initial slider values configured in `setup_controls`. -/
def sliders0 : Sliders :=
  { acceleration_voltage := 2000, persistence := 500,
    vertical_voltage := 0, horizontal_voltage := 0,
    vert_amplitude := 150, vert_frequency := 1, vert_phase := 0,
    horiz_amplitude := 150, horiz_frequency := 1.5, horiz_phase := 90 }

/-- The initial slider values with the horizontal phase knob at zero. -/
def sliders1 : Sliders :=
  { sliders0 with horiz_phase := 0 }

/-- The initial simulation state of `CRTSimulation.__init__`: manual
mode, time 0, fresh electron, empty trace buffer, running. -/
def state0 : SimState :=
  { mode := Mode.manual, time := 0, electron := Simul.Electron.reset,
    screen_traces := [], simulation_speed := 1 }

/-- The axial speed acquired from a 2000 V acceleration voltage
(`sqrt(2 q |Va| / m)` with the constants of `Simul.py`). -/
def vzVal : ℝ :=
  Real.sqrt (2 * Simul.ELECTRON_CHARGE * |(2000 : ℝ)| / Simul.ELECTRON_MASS)

/-- Electron states reachable from `Electron.reset` by `Electron.update`
calls (of `Simul.py`) with non-negative time steps. -/
inductive ReachableSimul : Electron → Prop where
| reset : ReachableSimul Simul.Electron.reset
| step (e : Electron) (dt Va Vv Vh : ℝ) (hdt : 0 ≤ dt) (h : ReachableSimul e) :
    ReachableSimul (Simul.Electron.update e dt Va Vv Vh)

/-- The transverse acceleration `Simul.py` adds (times `dt`) inside a
deflection region at plate voltage `V`:
`force = -ELECTRON_CHARGE * (V / PLATE_SEPARATION)`, over the mass. -/
def Simul.plate_accel (V : ℝ) : ℝ :=
  -Simul.ELECTRON_CHARGE * (V / Simul.PLATE_SEPARATION) / Simul.ELECTRON_MASS

/-- The transverse acceleration `simul_prueba.py` adds (times `dt`)
inside a deflection region at plate voltage `V`:
`force = ELECTRON_CHARGE * (-V / PLATE_SEPARATION)` with the negative
charge, over the mass. -/
def Prueba.plate_accel (V : ℝ) : ℝ :=
  Prueba.ELECTRON_CHARGE * (-V / Prueba.PLATE_SEPARATION) / Prueba.ELECTRON_MASS

/-- Invariant for the undeflected run: the particle sits on the axis
(`x = y = 0`, no transverse velocity) with the impulse already applied,
axial speed `v` and axial position `zpos`. -/
def OnAxis (v zpos : ℝ) (e : Electron) : Prop :=
  e.x = 0 ∧ e.y = 0 ∧ e.vx = 0 ∧ e.vy = 0 ∧ e.vz = v ∧
  e.initial_acceleration_done = true ∧ e.z = zpos

/-- A particle state inside the vertical-deflection plate region
(`z = 0.07`), centred between the plates. -/
def onAxisPlateElectron : Electron :=
  { x := 0, y := 0, z := 0.07, vx := 0, vy := 0, vz := 1e7,
    path := [], initial_acceleration_done := true }

/-- A particle state about to hit the screen exactly at the right edge
(`x = SCREEN_SIZE / 2`). -/
def boundaryElectron : Electron :=
  { x := 0.1, y := 0, z := 0.33, vx := 0, vy := 0, vz := 0,
    path := [], initial_acceleration_done := true }

/-- A sample trace event with full brightness at timestamp 0. -/
def evC3 : TraceEvent := { x := 0, y := 0, time := 0, brightness := 1 }

/-- A second sample trace event, distinguishable from `evC3`. -/
def evC9 : TraceEvent := { x := 0.05, y := -0.05, time := 3, brightness := 1 / 2 }

/-! ### Theorems -/

/-- C2: for every transit, the first `Electron.update` call with
`|Va| > 0` and the impulse not yet applied sets
`vz = sqrt(2 q |Va| / m)` and marks the impulse as done; on every
subsequent update (flag set), `vz` is left unchanged whatever `Va` is,
and the flag stays set. -/
theorem impulse_applied_exactly_once (e : Electron) (dt Va Vv Vh : ℝ) :
    (e.initial_acceleration_done = false → 0 < |Va| →
      (Simul.Electron.update e dt Va Vv Vh).vz =
        Real.sqrt (2 * Simul.ELECTRON_CHARGE * |Va| / Simul.ELECTRON_MASS) ∧
      (Simul.Electron.update e dt Va Vv Vh).initial_acceleration_done = true) ∧
    (e.initial_acceleration_done = true →
      (Simul.Electron.update e dt Va Vv Vh).vz = e.vz ∧
      (Simul.Electron.update e dt Va Vv Vh).initial_acceleration_done = true) := by
  constructor
  · intro h1 h2
    constructor <;> simp [Simul.Electron.update, h1, h2]
  · intro h1
    constructor <;> simp [Simul.Electron.update, h1]

/-- Witness for C2: starting from `Electron.reset` with `Va = 2000`, the
impulse fires and sets `vz`; a later update with a different `Va = 500`
leaves `vz` unchanged. -/
theorem impulse_applied_exactly_once_witness :
    (Simul.Electron.reset.initial_acceleration_done = false ∧ 0 < |(2000 : ℝ)| ∧
      (Simul.Electron.update Simul.Electron.reset 1 2000 0 0).vz =
        Real.sqrt (2 * Simul.ELECTRON_CHARGE * |(2000 : ℝ)| / Simul.ELECTRON_MASS)) ∧
    ((Simul.Electron.update Simul.Electron.reset 1 2000 0 0).initial_acceleration_done = true ∧
      (Simul.Electron.update (Simul.Electron.update Simul.Electron.reset 1 2000 0 0)
        1 500 0 0).vz = (Simul.Electron.update Simul.Electron.reset 1 2000 0 0).vz) := by
  have h1 := (impulse_applied_exactly_once Simul.Electron.reset 1 2000 0 0).1
    (by simp [Simul.Electron.reset]) (by norm_num)
  have h2 := (impulse_applied_exactly_once
    (Simul.Electron.update Simul.Electron.reset 1 2000 0 0) 1 500 0 0).2 h1.2
  exact ⟨⟨by simp [Simul.Electron.reset], by norm_num, h1.1⟩, h1.2, h2.1⟩

/-- C7: in each integration step, `vy` receives a field impulse exactly
when `z` is in the vertical-plate interval and `|y| < d/2`, and `vx`
exactly when `z` is in the horizontal-plate interval and `|x| < d/2`;
otherwise the corresponding velocity is unchanged. -/
theorem field_impulse_gated_by_region (e : Electron) (dt Va Vv Vh : ℝ) :
    ((Simul.DISTANCE_GUN_TO_PLATES ≤ e.z ∧
        e.z ≤ Simul.DISTANCE_GUN_TO_PLATES + Simul.PLATE_LENGTH ∧
        |e.y| < Simul.PLATE_SEPARATION / 2) →
      (Simul.Electron.update e dt Va Vv Vh).vy =
        e.vy + -Simul.ELECTRON_CHARGE * (Vv / Simul.PLATE_SEPARATION) /
          Simul.ELECTRON_MASS * dt) ∧
    (¬(Simul.DISTANCE_GUN_TO_PLATES ≤ e.z ∧
        e.z ≤ Simul.DISTANCE_GUN_TO_PLATES + Simul.PLATE_LENGTH ∧
        |e.y| < Simul.PLATE_SEPARATION / 2) →
      (Simul.Electron.update e dt Va Vv Vh).vy = e.vy) ∧
    ((Simul.DISTANCE_GUN_TO_PLATES + Simul.PLATE_LENGTH + Simul.DISTANCE_BETWEEN_PLATES ≤ e.z ∧
        e.z ≤ Simul.DISTANCE_GUN_TO_PLATES + Simul.PLATE_LENGTH + Simul.DISTANCE_BETWEEN_PLATES +
          Simul.PLATE_LENGTH ∧
        |e.x| < Simul.PLATE_SEPARATION / 2) →
      (Simul.Electron.update e dt Va Vv Vh).vx =
        e.vx + -Simul.ELECTRON_CHARGE * (Vh / Simul.PLATE_SEPARATION) /
          Simul.ELECTRON_MASS * dt) ∧
    (¬(Simul.DISTANCE_GUN_TO_PLATES + Simul.PLATE_LENGTH + Simul.DISTANCE_BETWEEN_PLATES ≤ e.z ∧
        e.z ≤ Simul.DISTANCE_GUN_TO_PLATES + Simul.PLATE_LENGTH + Simul.DISTANCE_BETWEEN_PLATES +
          Simul.PLATE_LENGTH ∧
        |e.x| < Simul.PLATE_SEPARATION / 2) →
      (Simul.Electron.update e dt Va Vv Vh).vx = e.vx) := by
  refine ⟨fun h => ?_, fun h => ?_, fun h => ?_, fun h => ?_⟩ <;>
    simp [Simul.Electron.update, h]

/-- Witness for C7: the freshly reset electron (at `z = 0.001`, outside
both plate regions) gets no transverse impulse from nonzero plate
voltages. -/
theorem field_impulse_gated_by_region_witness :
    ¬(Simul.DISTANCE_GUN_TO_PLATES ≤ Simul.Electron.reset.z ∧
        Simul.Electron.reset.z ≤ Simul.DISTANCE_GUN_TO_PLATES + Simul.PLATE_LENGTH ∧
        |Simul.Electron.reset.y| < Simul.PLATE_SEPARATION / 2) ∧
    (Simul.Electron.update Simul.Electron.reset 1 2000 7 9).vy =
      Simul.Electron.reset.vy := by
  have hout : ¬(Simul.DISTANCE_GUN_TO_PLATES ≤ Simul.Electron.reset.z ∧
      Simul.Electron.reset.z ≤ Simul.DISTANCE_GUN_TO_PLATES + Simul.PLATE_LENGTH ∧
      |Simul.Electron.reset.y| < Simul.PLATE_SEPARATION / 2) := by
    simp only [Simul.Electron.reset, Simul.DISTANCE_GUN_TO_PLATES, Simul.PLATE_LENGTH,
      Simul.PLATE_SEPARATION]
    norm_num
  exact ⟨hout,
    (field_impulse_gated_by_region Simul.Electron.reset 1 2000 7 9).2.1 hout⟩

/-- C8: each `Electron.update` call updates the transverse velocities
first and then computes all three positions from the already-updated
velocities: the resulting position equals the old position plus the new
velocity times `dt`, on every axis. -/
theorem velocity_updated_before_position (e : Electron) (dt Va Vv Vh : ℝ) :
    (Simul.Electron.update e dt Va Vv Vh).x =
      e.x + (Simul.Electron.update e dt Va Vv Vh).vx * dt ∧
    (Simul.Electron.update e dt Va Vv Vh).y =
      e.y + (Simul.Electron.update e dt Va Vv Vh).vy * dt ∧
    (Simul.Electron.update e dt Va Vv Vh).z =
      e.z + (Simul.Electron.update e dt Va Vv Vh).vz * dt := by
  refine ⟨?_, ?_, ?_⟩ <;> simp [Simul.Electron.update]

/-- Helper: every state reachable from reset has a non-negative axial
velocity (it is 0 at reset and only ever assigned a square root). -/
lemma reachable_vz_nonneg (e : Electron) (h : ReachableSimul e) : 0 ≤ e.vz := by
  induction h with
  | reset => simp [Simul.Electron.reset]
  | step e dt Va Vv Vh hdt h ih =>
    have hvz : 0 ≤ (if e.initial_acceleration_done = false ∧ 0 < |Va| then
        Real.sqrt (2 * Simul.ELECTRON_CHARGE * |Va| / Simul.ELECTRON_MASS) else e.vz) := by
      split
      · exact Real.sqrt_nonneg _
      · exact ih
    simpa [Simul.Electron.update] using hvz

/-- C10: every state reachable from reset by updates with `dt ≥ 0` has
`vz ≥ 0`, and consequently a further update with `dt ≥ 0` never
decreases `z` — the particle never moves back toward the gun. -/
theorem axial_velocity_nonneg_z_monotone (e : Electron) (h : ReachableSimul e) :
    0 ≤ e.vz ∧
    ∀ dt Va Vv Vh : ℝ, 0 ≤ dt → e.z ≤ (Simul.Electron.update e dt Va Vv Vh).z := by
  refine ⟨reachable_vz_nonneg e h, fun dt Va Vv Vh hdt => ?_⟩
  have hvz : 0 ≤ (Simul.Electron.update e dt Va Vv Vh).vz :=
    reachable_vz_nonneg _ (ReachableSimul.step e dt Va Vv Vh hdt h)
  have hz : (Simul.Electron.update e dt Va Vv Vh).z =
      e.z + (Simul.Electron.update e dt Va Vv Vh).vz * dt := by
    simp [Simul.Electron.update]
  nlinarith [mul_nonneg hvz hdt]

/-- Witness for C10: at the reset state (reachable by construction),
`vz = 0 ≥ 0` and an update with `dt = 1` does not decrease `z`. -/
theorem axial_velocity_nonneg_z_monotone_witness :
    0 ≤ Simul.Electron.reset.vz ∧
    Simul.Electron.reset.z ≤ (Simul.Electron.update Simul.Electron.reset 1 2000 0 0).z :=
  ⟨(axial_velocity_nonneg_z_monotone Simul.Electron.reset ReachableSimul.reset).1,
   (axial_velocity_nonneg_z_monotone Simul.Electron.reset ReachableSimul.reset).2
     1 2000 0 0 (by norm_num)⟩

/-- Helper: the two files define the same plate geometry. -/
lemma prueba_gun_eq : Prueba.DISTANCE_GUN_TO_PLATES = Simul.DISTANCE_GUN_TO_PLATES := rfl

/-- Helper: equal plate lengths in the two files. -/
lemma prueba_plate_len_eq : Prueba.PLATE_LENGTH = Simul.PLATE_LENGTH := rfl

/-- Helper: equal plate separations in the two files. -/
lemma prueba_plate_sep_eq : Prueba.PLATE_SEPARATION = Simul.PLATE_SEPARATION := rfl

/-- Helper: equal inter-plate gaps in the two files. -/
lemma prueba_between_eq : Prueba.DISTANCE_BETWEEN_PLATES = Simul.DISTANCE_BETWEEN_PLATES := rfl

/-- C5: inside a deflection region both variants add `plate_accel V * dt`
to the matching transverse velocity — the same formula on both axes of
each variant — and for a nonzero plate voltage the two variants'
accelerations have equal magnitude `|q| * |V| / (d * m)` and opposite
sign. -/
theorem sign_conventions_opposite_but_consistent (e : Electron) (dt Va Vv Vh V : ℝ)
    (hV : V ≠ 0) :
    ((Simul.DISTANCE_GUN_TO_PLATES ≤ e.z ∧
        e.z ≤ Simul.DISTANCE_GUN_TO_PLATES + Simul.PLATE_LENGTH ∧
        |e.y| < Simul.PLATE_SEPARATION / 2) →
      (Simul.Electron.update e dt Va Vv Vh).vy = e.vy + Simul.plate_accel Vv * dt ∧
      (Prueba.Electron.update e dt Va Vv Vh).vy = e.vy + Prueba.plate_accel Vv * dt) ∧
    ((Simul.DISTANCE_GUN_TO_PLATES + Simul.PLATE_LENGTH + Simul.DISTANCE_BETWEEN_PLATES ≤ e.z ∧
        e.z ≤ Simul.DISTANCE_GUN_TO_PLATES + Simul.PLATE_LENGTH + Simul.DISTANCE_BETWEEN_PLATES +
          Simul.PLATE_LENGTH ∧
        |e.x| < Simul.PLATE_SEPARATION / 2) →
      (Simul.Electron.update e dt Va Vv Vh).vx = e.vx + Simul.plate_accel Vh * dt ∧
      (Prueba.Electron.update e dt Va Vv Vh).vx = e.vx + Prueba.plate_accel Vh * dt) ∧
    |Simul.plate_accel V| =
      Prueba.ELECTRON_CHARGE_MAG * |V| / (Simul.PLATE_SEPARATION * Simul.ELECTRON_MASS) ∧
    Prueba.plate_accel V = -Simul.plate_accel V ∧
    Simul.plate_accel V * Prueba.plate_accel V < 0 := by
  have hconst : Simul.plate_accel V =
      -(Prueba.ELECTRON_CHARGE_MAG / (Simul.PLATE_SEPARATION * Simul.ELECTRON_MASS)) * V := by
    unfold Simul.plate_accel Prueba.ELECTRON_CHARGE_MAG Simul.ELECTRON_CHARGE
      Simul.PLATE_SEPARATION Simul.ELECTRON_MASS
    ring
  have hneg : Prueba.plate_accel V = -Simul.plate_accel V := by
    unfold Simul.plate_accel Prueba.plate_accel Prueba.ELECTRON_CHARGE Simul.ELECTRON_CHARGE
      Prueba.PLATE_SEPARATION Simul.PLATE_SEPARATION Prueba.ELECTRON_MASS Simul.ELECTRON_MASS
    ring
  refine ⟨fun h => ⟨?_, ?_⟩, fun h => ⟨?_, ?_⟩, ?_, hneg, ?_⟩
  · simp [Simul.Electron.update, Simul.plate_accel, h]
  · simp [Prueba.Electron.update, Prueba.plate_accel, prueba_gun_eq, prueba_plate_len_eq,
      prueba_plate_sep_eq, prueba_between_eq, h]
  · simp [Simul.Electron.update, Simul.plate_accel, h]
  · simp [Prueba.Electron.update, Prueba.plate_accel, prueba_gun_eq, prueba_plate_len_eq,
      prueba_plate_sep_eq, prueba_between_eq, h]
  · rw [hconst, abs_mul, abs_neg, abs_div]
    rw [abs_of_pos (by norm_num [Prueba.ELECTRON_CHARGE_MAG] :
      (0 : ℝ) < Prueba.ELECTRON_CHARGE_MAG)]
    rw [abs_of_pos (by norm_num [Simul.PLATE_SEPARATION, Simul.ELECTRON_MASS] :
      (0 : ℝ) < Simul.PLATE_SEPARATION * Simul.ELECTRON_MASS)]
    ring
  · rw [hneg, hconst]
    have hc : -(Prueba.ELECTRON_CHARGE_MAG /
        (Simul.PLATE_SEPARATION * Simul.ELECTRON_MASS)) * V ≠ 0 := by
      apply mul_ne_zero _ hV
      norm_num [Prueba.ELECTRON_CHARGE_MAG, Simul.PLATE_SEPARATION, Simul.ELECTRON_MASS]
    nlinarith [mul_self_pos.mpr hc]

/-- Witness for C5: a state inside the vertical-plate region at 100 V
receives opposite equal impulses in the two variants. -/
theorem sign_conventions_opposite_but_consistent_witness :
    ((100 : ℝ) ≠ 0 ∧
      (Simul.DISTANCE_GUN_TO_PLATES ≤ onAxisPlateElectron.z ∧
        onAxisPlateElectron.z ≤ Simul.DISTANCE_GUN_TO_PLATES + Simul.PLATE_LENGTH ∧
        |onAxisPlateElectron.y| < Simul.PLATE_SEPARATION / 2)) ∧
    ((Simul.Electron.update onAxisPlateElectron 1 2000 100 0).vy =
        onAxisPlateElectron.vy + Simul.plate_accel 100 * 1 ∧
      (Prueba.Electron.update onAxisPlateElectron 1 2000 100 0).vy =
        onAxisPlateElectron.vy + Prueba.plate_accel 100 * 1) ∧
    Prueba.plate_accel 100 = -Simul.plate_accel 100 := by
  have hin : Simul.DISTANCE_GUN_TO_PLATES ≤ onAxisPlateElectron.z ∧
      onAxisPlateElectron.z ≤ Simul.DISTANCE_GUN_TO_PLATES + Simul.PLATE_LENGTH ∧
      |onAxisPlateElectron.y| < Simul.PLATE_SEPARATION / 2 := by
    simp only [onAxisPlateElectron, Simul.DISTANCE_GUN_TO_PLATES, Simul.PLATE_LENGTH,
      Simul.PLATE_SEPARATION]
    norm_num
  have h := sign_conventions_opposite_but_consistent onAxisPlateElectron 1 2000 100 0 100
    (by norm_num)
  exact ⟨⟨by norm_num, hin⟩, h.1 hin, h.2.2.2.1⟩

/-- C6: when the updated particle has reached the screen plane, the
sub-step appends a trace event to the buffer exactly when
`is_within_screen_bounds` holds (`|x| ≤ SCREEN_SIZE/2` and
`|y| ≤ SCREEN_SIZE/2`, boundary inclusive); otherwise the buffer is
unchanged. -/
theorem trace_recorded_iff_within_bounds (s : Sliders) (Vv Vh t : ℝ) (e : Electron)
    (tr : List TraceEvent)
    (hhit : Simul.Electron.has_hit_screen
      (Simul.Electron.update e 2e-9 s.acceleration_voltage Vv Vh)) :
    (Simul.Electron.is_within_screen_bounds
        (Simul.Electron.update e 2e-9 s.acceleration_voltage Vv Vh) →
      (Simul.physicsSubstep s Vv Vh t (e, tr)).2 =
        pushBounded 5000 tr
          { x := (Simul.Electron.update e 2e-9 s.acceleration_voltage Vv Vh).x,
            y := (Simul.Electron.update e 2e-9 s.acceleration_voltage Vv Vh).y,
            time := t, brightness := min 1 (s.acceleration_voltage / 4000) }) ∧
    (¬Simul.Electron.is_within_screen_bounds
        (Simul.Electron.update e 2e-9 s.acceleration_voltage Vv Vh) →
      (Simul.physicsSubstep s Vv Vh t (e, tr)).2 = tr) := by
  constructor <;> intro hb <;> simp [Simul.physicsSubstep, hhit, hb]

/-- Witness for C6: a hit exactly at `x = SCREEN_SIZE / 2` is accepted
and recorded in the trace buffer. -/
theorem trace_recorded_iff_within_bounds_witness :
    Simul.Electron.has_hit_screen
      (Simul.Electron.update boundaryElectron 2e-9 sliders0.acceleration_voltage 0 0) ∧
    |(Simul.Electron.update boundaryElectron 2e-9 sliders0.acceleration_voltage 0 0).x| =
      Simul.SCREEN_SIZE / 2 ∧
    (Simul.physicsSubstep sliders0 0 0 0 (boundaryElectron, [])).2 =
      [{ x := 0.1, y := 0, time := 0, brightness := 1 / 2 }] := by
  have hup : Simul.Electron.update boundaryElectron 2e-9 sliders0.acceleration_voltage 0 0 =
      { x := 0.1, y := 0, z := 0.33, vx := 0, vy := 0, vz := 0,
        path := [(0.1, 0, 0.33)], initial_acceleration_done := true } := by
    simp only [Simul.Electron.update, boundaryElectron, sliders0, Simul.DISTANCE_GUN_TO_PLATES,
      Simul.PLATE_LENGTH, Simul.DISTANCE_BETWEEN_PLATES, Simul.PLATE_SEPARATION,
      Simul.ELECTRON_CHARGE, Simul.ELECTRON_MASS, pushBounded]
    norm_num
  have hhit : Simul.Electron.has_hit_screen
      (Simul.Electron.update boundaryElectron 2e-9 sliders0.acceleration_voltage 0 0) := by
    rw [hup]
    simp only [Simul.Electron.has_hit_screen, Simul.screen_distance,
      Simul.DISTANCE_GUN_TO_PLATES, Simul.PLATE_LENGTH, Simul.DISTANCE_BETWEEN_PLATES,
      Simul.DISTANCE_TO_SCREEN]
    norm_num
  have hbounds : Simul.Electron.is_within_screen_bounds
      (Simul.Electron.update boundaryElectron 2e-9 sliders0.acceleration_voltage 0 0) := by
    rw [hup]
    simp only [Simul.Electron.is_within_screen_bounds, Simul.SCREEN_SIZE]
    norm_num [abs_of_nonneg]
  refine ⟨hhit, ?_, ?_⟩
  · rw [hup]
    simp only [Simul.SCREEN_SIZE]
    norm_num [abs_of_nonneg]
  · have h := (trace_recorded_iff_within_bounds sliders0 0 0 0 boundaryElectron [] hhit).1 hbounds
    rw [h, hup]
    simp [pushBounded, sliders0]
    norm_num

/-- Helper: the length of a bounded push is `min (length + 1) maxlen`. -/
lemma pushBounded_length {α : Type} (m : ℕ) (l : List α) (a : α) :
    (pushBounded m l a).length = min (l.length + 1) m := by
  simp only [pushBounded, List.length_drop, List.length_append, List.length_cons,
    List.length_nil]
  omega

/-- Helper: below capacity a bounded push is a plain append. -/
lemma pushBounded_of_lt {α : Type} (m : ℕ) (l : List α) (a : α) (h : l.length + 1 ≤ m) :
    pushBounded m l a = l ++ [a] := by
  have h0 : l.length + 1 - m = 0 := by omega
  simp [pushBounded, h0]

/-- C9: the trace buffer never exceeds its capacity of 5000 events under
any sequence of appends, and an append at capacity evicts exactly the
oldest stored event (FIFO). -/
theorem trace_buffer_capacity_fifo :
    (∀ (evs : List TraceEvent) (tr : List TraceEvent), tr.length ≤ 5000 →
      (evs.foldl (pushBounded 5000) tr).length ≤ 5000) ∧
    (∀ (tr : List TraceEvent) (ev : TraceEvent), tr.length = 5000 →
      pushBounded 5000 tr ev = tr.drop 1 ++ [ev]) := by
  constructor
  · intro evs
    induction evs with
    | nil => intro tr h; simpa using h
    | cons ev evs ih =>
      intro tr h
      have hstep : (pushBounded 5000 tr ev).length ≤ 5000 := by
        rw [pushBounded_length]; omega
      simpa using ih (pushBounded 5000 tr ev) hstep
  · intro tr ev h
    have h1 : (tr ++ [ev]).length - 5000 = 1 := by
      simp only [List.length_append, List.length_cons, List.length_nil, h]
    rw [show pushBounded 5000 tr ev = (tr ++ [ev]).drop ((tr ++ [ev]).length - 5000) from rfl,
      h1, List.drop_append_of_le_length (by omega)]

/-- Witness for C9: appends from the empty buffer stay within capacity,
and an append to a full buffer of 5000 events drops the oldest one. -/
theorem trace_buffer_capacity_fifo_witness :
    (([] : List TraceEvent).length ≤ 5000 ∧
      ([evC3].foldl (pushBounded 5000) ([] : List TraceEvent)).length ≤ 5000) ∧
    ((List.replicate 5000 evC3).length = 5000 ∧
      pushBounded 5000 (List.replicate 5000 evC3) evC9 =
        (List.replicate 5000 evC3).drop 1 ++ [evC9]) :=
  ⟨⟨by simp, trace_buffer_capacity_fifo.1 [evC3] [] (by simp)⟩,
   ⟨by rw [List.length_replicate],
    trace_buffer_capacity_fifo.2 (List.replicate 5000 evC3) evC9
      (by rw [List.length_replicate])⟩⟩

/-- Helper: the renderer skips a trace event exactly when its age has
reached `persistence * 2`. -/
lemma displayIntensity_none_iff (p tNow : ℝ) (ev : TraceEvent) :
    Simul.displayIntensity p tNow ev = none ↔ ¬(tNow - ev.time < p * 2) := by
  simp only [Simul.displayIntensity]
  split <;> simp_all

/-- C3 counterexample: for the event `(0,0,t=0,brightness=1)` queried at
`tNow = 950` with `persistence = 500`, the code displays intensity
`max(0.1, 0.05) = 1/10`, while the claimed formula
`brightness * max(0, 1 - age/(2*persistence))` gives `1/20`. -/
theorem display_intensity_counterexample :
    Simul.displayIntensity 500 950 evC3 = some (1 / 10) ∧
    specIntensity 500 950 evC3 = 1 / 20 ∧
    ¬((1 : ℝ) / 10 = 1 / 20) := by
  refine ⟨?_, ?_, by norm_num⟩
  · simp only [Simul.displayIntensity, evC3]
    rw [if_pos (by norm_num)]
    rw [show (1 : ℝ) - (950 - 0) / (500 * 2) = 1 / 20 by norm_num]
    rw [max_eq_left (by norm_num)]
    norm_num
  · simp only [specIntensity, evC3]
    rw [show (1 : ℝ) - (950 - 0) / (2 * 500) = 1 / 20 by norm_num]
    rw [max_eq_right (by norm_num)]
    norm_num

/-- C3 amended: an event is skipped by the renderer iff its age has
reached `2 * persistence` (equivalently, for positive brightness and
persistence, iff the spec formula's intensity would be `≤ 0`); a
displayed event's effective intensity is
`brightness * max(0.1, 1 - age/(2*persistence))` — the floor is `0.1`,
not `0`.  Skipping is a pure rendering filter; the buffer itself is only
ever shortened by capacity eviction (see the capacity theorem). -/
theorem display_intensity_amended (p tNow : ℝ) (ev : TraceEvent) :
    (Simul.displayIntensity p tNow ev = none ↔ ¬(tNow - ev.time < p * 2)) ∧
    (tNow - ev.time < p * 2 →
      Simul.displayIntensity p tNow ev =
        some (max 0.1 (1 - (tNow - ev.time) / (p * 2)) * ev.brightness)) ∧
    (0 < ev.brightness → 0 < p →
      (specIntensity p tNow ev ≤ 0 ↔ Simul.displayIntensity p tNow ev = none)) := by
  refine ⟨displayIntensity_none_iff p tNow ev, fun h => ?_, fun hb hp => ?_⟩
  · simp [Simul.displayIntensity, h]
  · rw [displayIntensity_none_iff]
    unfold specIntensity
    constructor
    · intro h hlt
      have hmax : 0 < 1 - (tNow - ev.time) / (2 * p) := by
        have hdiv : (tNow - ev.time) / (2 * p) < 1 := by
          rw [div_lt_one (by linarith)]
          linarith
        linarith
      have hpos : 0 < ev.brightness * max 0 (1 - (tNow - ev.time) / (2 * p)) := by
        apply mul_pos hb
        rw [max_eq_right (le_of_lt hmax)]
        exact hmax
      linarith
    · intro h
      have hge : 1 - (tNow - ev.time) / (2 * p) ≤ 0 := by
        push_neg at h
        have hdiv : 1 ≤ (tNow - ev.time) / (2 * p) := by
          rw [le_div_iff₀ (by linarith)]
          linarith
        linarith
      rw [max_eq_left hge, mul_zero]

/-- Witness for C3 amended: a fresh event (age 0) is displayed at its
full brightness, and an expired event (age `= 2 * persistence`) is
exactly the skipped case predicted by the spec formula. -/
theorem display_intensity_amended_witness :
    ((500 : ℝ) - evC3.time < 500 * 2 ∧
      Simul.displayIntensity 500 500 evC3 =
        some (max 0.1 (1 - (500 - evC3.time) / (500 * 2)) * evC3.brightness)) ∧
    (0 < evC3.brightness ∧ (0 : ℝ) < 500 ∧
      (specIntensity 500 2000 evC3 ≤ 0 ↔ Simul.displayIntensity 500 2000 evC3 = none)) := by
  refine ⟨⟨?_, (display_intensity_amended 500 500 evC3).2.1 ?_⟩, ⟨?_, by norm_num, ?_⟩⟩
  · simp only [evC3]; norm_num
  · simp only [evC3]; norm_num
  · simp only [evC3]; norm_num
  · exact (display_intensity_amended 500 2000 evC3).2.2 (by simp only [evC3]; norm_num)
      (by norm_num)

/-- C4 counterexample: with the initial sliders (horizontal phase 90°,
horizontal frequency 1.5 Hz, amplitude 150 V) at time 0, `Simul.py`
returns horizontal voltage `150*sin(0) = 0`, while the claimed per-axis
formula `A*sin(2 pi f t + phase)` gives `150*sin(pi/2) = 150`. -/
theorem waveform_phase_counterexample :
    (Simul.get_voltages Mode.lissajous sliders0 0).2 = 0 ∧
    specAxisVoltage sliders0.horiz_amplitude sliders0.horiz_frequency
      sliders0.horiz_phase 0 = 150 ∧
    ((0 : ℝ) ≠ 150) := by
  refine ⟨?_, ?_, by norm_num⟩
  · simp [Simul.get_voltages, sliders0]
  · simp only [specAxisVoltage, sliders0]
    rw [show (2 * Real.pi * 1.5 * ((0 : ℝ) / 1000) + 90 * Real.pi / 180) = Real.pi / 2 by
      ring]
    rw [Real.sin_pi_div_two]
    norm_num

/-- C4 amended: in `simul_prueba.py` each axis is an independent sinusoid
with its own amplitude, frequency and phase, exactly the claimed formula;
in `Simul.py` the horizontal axis is `Ah*sin(2 pi fh t)` (no phase) and
the vertical axis applies only the phase difference
`(vert_phase - horiz_phase)`, so both axes agree with the claimed
per-axis formula exactly when `horiz_phase = 0`. -/
theorem waveform_phase_amended (s : Sliders) (time : ℝ) :
    (Prueba.get_voltages Mode.lissajous s time).1 =
      specAxisVoltage s.vert_amplitude s.vert_frequency s.vert_phase time ∧
    (Prueba.get_voltages Mode.lissajous s time).2 =
      specAxisVoltage s.horiz_amplitude s.horiz_frequency s.horiz_phase time ∧
    (Simul.get_voltages Mode.lissajous s time).2 =
      s.horiz_amplitude * Real.sin (2 * Real.pi * s.horiz_frequency * (time / 1000)) ∧
    (Simul.get_voltages Mode.lissajous s time).1 =
      s.vert_amplitude * Real.sin (2 * Real.pi * s.vert_frequency * (time / 1000) +
        (s.vert_phase - s.horiz_phase) * Real.pi / 180) ∧
    (s.horiz_phase = 0 →
      (Simul.get_voltages Mode.lissajous s time).1 =
        specAxisVoltage s.vert_amplitude s.vert_frequency s.vert_phase time ∧
      (Simul.get_voltages Mode.lissajous s time).2 =
        specAxisVoltage s.horiz_amplitude s.horiz_frequency s.horiz_phase time) := by
  refine ⟨rfl, rfl, rfl, rfl, fun h => ⟨?_, ?_⟩⟩
  · show s.vert_amplitude * Real.sin (2 * Real.pi * s.vert_frequency * (time / 1000) +
        (s.vert_phase - s.horiz_phase) * Real.pi / 180) = _
    rw [h]
    unfold specAxisVoltage
    congr 1
    ring_nf
  · show s.horiz_amplitude * Real.sin (2 * Real.pi * s.horiz_frequency * (time / 1000)) = _
    rw [h]
    unfold specAxisVoltage
    congr 1
    ring_nf

/-- Witness for C4 amended: with the horizontal phase knob at zero, the
`Simul.py` vertical voltage agrees with the claimed per-axis formula. -/
theorem waveform_phase_amended_witness :
    sliders1.horiz_phase = 0 ∧
    (Simul.get_voltages Mode.lissajous sliders1 0).1 =
      specAxisVoltage sliders1.vert_amplitude sliders1.vert_frequency
        sliders1.vert_phase 0 :=
  ⟨rfl, ((waveform_phase_amended sliders1 0).2.2.2.2 rfl).1⟩

/-- Helper: lower bound for the axial speed at 2000 V. -/
lemma vzVal_lb : (2.65e7 : ℝ) ≤ vzVal := by
  unfold vzVal Simul.ELECTRON_CHARGE Simul.ELECTRON_MASS
  rw [show |(2000 : ℝ)| = 2000 by norm_num]
  rw [show (2.65e7 : ℝ) = Real.sqrt ((2.65e7) ^ 2) from (Real.sqrt_sq (by norm_num)).symm]
  apply Real.sqrt_le_sqrt
  norm_num

/-- Helper: upper bound for the axial speed at 2000 V. -/
lemma vzVal_ub : vzVal ≤ (2.66e7 : ℝ) := by
  unfold vzVal Simul.ELECTRON_CHARGE Simul.ELECTRON_MASS
  rw [show |(2000 : ℝ)| = 2000 by norm_num]
  rw [show (2.66e7 : ℝ) = Real.sqrt ((2.66e7) ^ 2) from (Real.sqrt_sq (by norm_num)).symm]
  apply Real.sqrt_le_sqrt
  norm_num

/-- Helper: with both plate voltages zero, an on-axis particle with the
impulse already applied stays on the axis and advances by `vz * dt`. -/
lemma update_onAxis (v zpos : ℝ) (e : Electron) (h : OnAxis v zpos e) :
    OnAxis v (zpos + v * 2e-9)
      (Simul.Electron.update e 2e-9 sliders0.acceleration_voltage 0 0) := by
  obtain ⟨hx, hy, hvx, hvy, hvz, hdone, hz⟩ := h
  refine ⟨?_, ?_, ?_, ?_, ?_, ?_, ?_⟩ <;>
    simp [Simul.Electron.update, hx, hy, hvx, hvy, hvz, hdone, hz]

/-- Helper: the first update from the reset state at 2000 V puts the
particle on the axis at speed `vzVal`. -/
lemma update_reset_onAxis :
    OnAxis vzVal (0.001 + vzVal * 2e-9)
      (Simul.Electron.update Simul.Electron.reset 2e-9 sliders0.acceleration_voltage 0 0) := by
  refine ⟨?_, ?_, ?_, ?_, ?_, ?_, ?_⟩ <;>
    norm_num [Simul.Electron.update, Simul.Electron.reset, vzVal, sliders0]

/-- Helper: an on-axis particle that would stay short of the screen is
advanced by one sub-step without touching the trace buffer. -/
lemma substep_onAxis_noHit (t zpos : ℝ) (p : Electron × List TraceEvent)
    (h : OnAxis vzVal zpos p.1) (hz : zpos + vzVal * 2e-9 < 0.33) :
    OnAxis vzVal (zpos + vzVal * 2e-9) (Simul.physicsSubstep sliders0 0 0 t p).1 ∧
    (Simul.physicsSubstep sliders0 0 0 t p).2 = p.2 := by
  have hup := update_onAxis vzVal zpos p.1 h
  have hznew : (Simul.Electron.update p.1 2e-9 sliders0.acceleration_voltage 0 0).z =
      zpos + vzVal * 2e-9 := hup.2.2.2.2.2.2
  have hnohit : ¬ Simul.Electron.has_hit_screen
      (Simul.Electron.update p.1 2e-9 sliders0.acceleration_voltage 0 0) := by
    simp only [Simul.Electron.has_hit_screen, Simul.screen_distance,
      Simul.DISTANCE_GUN_TO_PLATES, Simul.PLATE_LENGTH, Simul.DISTANCE_BETWEEN_PLATES,
      Simul.DISTANCE_TO_SCREEN, hznew]
    norm_num
    linarith
  simp only [Simul.physicsSubstep]
  rw [if_neg hnohit]
  exact ⟨hup, rfl⟩

/-- Helper: an on-axis particle that reaches the screen plane appends the
centre-screen trace event and resets. -/
lemma substep_onAxis_hit (t zpos : ℝ) (p : Electron × List TraceEvent)
    (h : OnAxis vzVal zpos p.1) (hz : (0.33 : ℝ) ≤ zpos + vzVal * 2e-9) :
    Simul.physicsSubstep sliders0 0 0 t p =
      (Simul.Electron.reset,
        pushBounded 5000 p.2 { x := 0, y := 0, time := t, brightness := 1 / 2 }) := by
  have hup := update_onAxis vzVal zpos p.1 h
  obtain ⟨hx, hy, hvx, hvy, hvz, hdone, hznew⟩ := hup
  have hhit : Simul.Electron.has_hit_screen
      (Simul.Electron.update p.1 2e-9 sliders0.acceleration_voltage 0 0) := by
    simp only [Simul.Electron.has_hit_screen, Simul.screen_distance,
      Simul.DISTANCE_GUN_TO_PLATES, Simul.PLATE_LENGTH, Simul.DISTANCE_BETWEEN_PLATES,
      Simul.DISTANCE_TO_SCREEN, hznew]
    norm_num
    linarith
  have hbounds : Simul.Electron.is_within_screen_bounds
      (Simul.Electron.update p.1 2e-9 sliders0.acceleration_voltage 0 0) := by
    simp only [Simul.Electron.is_within_screen_bounds, Simul.SCREEN_SIZE, hx, hy]
    norm_num
  simp only [Simul.physicsSubstep]
  rw [if_pos hhit, if_pos hbounds, hx, hy]
  have hbr : min (1 : ℝ) (sliders0.acceleration_voltage / 4000) = 1 / 2 := by
    simp only [sliders0]
    rw [min_eq_right (by norm_num)]
    norm_num
  rw [hbr]

/-- Helper: `n` sub-steps that all stay short of the screen keep the
particle on the axis and leave the trace buffer untouched. -/
lemma iterate_onAxis_noHit (t : ℝ) (n : ℕ) :
    ∀ (p : Electron × List TraceEvent) (zpos : ℝ), OnAxis vzVal zpos p.1 →
      zpos + n * (vzVal * 2e-9) < 0.33 →
      OnAxis vzVal (zpos + n * (vzVal * 2e-9))
        ((Simul.physicsSubstep sliders0 0 0 t)^[n] p).1 ∧
      ((Simul.physicsSubstep sliders0 0 0 t)^[n] p).2 = p.2 := by
  induction n with
  | zero => intro p zpos h hz; simpa using h
  | succ n ih =>
    intro p zpos h hz
    have hvpos : (0 : ℝ) ≤ vzVal * 2e-9 := by
      have := vzVal_lb
      nlinarith
    have hz1 : zpos + vzVal * 2e-9 < 0.33 := by
      have hn : (0 : ℝ) ≤ n * (vzVal * 2e-9) := by positivity
      push_cast at hz
      nlinarith
    have hstep := substep_onAxis_noHit t zpos p h hz1
    rw [Function.iterate_succ_apply]
    have hz2 : (zpos + vzVal * 2e-9) + n * (vzVal * 2e-9) < 0.33 := by
      push_cast at hz ⊢
      nlinarith
    have hres := ih (Simul.physicsSubstep sliders0 0 0 t p) (zpos + vzVal * 2e-9)
      hstep.1 hz2
    refine ⟨?_, by rw [hres.2, hstep.2]⟩
    have harith : zpos + vzVal * 2e-9 + n * (vzVal * 2e-9) =
        zpos + (n + 1 : ℕ) * (vzVal * 2e-9) := by
      push_cast
      ring
    rw [← harith]
    exact hres.1

/-- Helper: the first seven sub-steps of a fresh tick (fresh electron,
zero plate voltages, 2000 V acceleration) produce exactly one trace
event, stamped with the tick time, and a freshly reset electron. -/
lemma run7 (t : ℝ) (tr : List TraceEvent) :
    (Simul.physicsSubstep sliders0 0 0 t)^[7] (Simul.Electron.reset, tr) =
      (Simul.Electron.reset,
        pushBounded 5000 tr { x := 0, y := 0, time := t, brightness := 1 / 2 }) := by
  have hfirst : Simul.physicsSubstep sliders0 0 0 t (Simul.Electron.reset, tr) =
      (Simul.Electron.update Simul.Electron.reset 2e-9 sliders0.acceleration_voltage 0 0,
        tr) := by
    have hz1 : (Simul.Electron.update Simul.Electron.reset 2e-9
        sliders0.acceleration_voltage 0 0).z = 0.001 + vzVal * 2e-9 :=
      update_reset_onAxis.2.2.2.2.2.2
    have hnohit : ¬ Simul.Electron.has_hit_screen
        (Simul.Electron.update Simul.Electron.reset 2e-9
          sliders0.acceleration_voltage 0 0) := by
      simp only [Simul.Electron.has_hit_screen, Simul.screen_distance,
        Simul.DISTANCE_GUN_TO_PLATES, Simul.PLATE_LENGTH, Simul.DISTANCE_BETWEEN_PLATES,
        Simul.DISTANCE_TO_SCREEN, hz1]
      norm_num
      linarith [vzVal_ub]
    simp only [Simul.physicsSubstep]
    rw [if_neg hnohit]
  rw [show (7 : ℕ) = 1 + 5 + 1 by norm_num, Function.iterate_add_apply,
    Function.iterate_add_apply, Function.iterate_one, hfirst]
  have hmid := iterate_onAxis_noHit t 5
    (Simul.Electron.update Simul.Electron.reset 2e-9 sliders0.acceleration_voltage 0 0, tr)
    (0.001 + vzVal * 2e-9) update_reset_onAxis
    (by push_cast; nlinarith [vzVal_ub, vzVal_lb])
  have hlast := substep_onAxis_hit t ((0.001 + vzVal * 2e-9) + 5 * (vzVal * 2e-9))
    ((Simul.physicsSubstep sliders0 0 0 t)^[5]
      (Simul.Electron.update Simul.Electron.reset 2e-9 sliders0.acceleration_voltage 0 0, tr))
    hmid.1 (by nlinarith [vzVal_lb])
  rw [hlast, hmid.2]

/-- Helper: each sub-step either leaves the trace buffer alone or, below
capacity, appends one event at the tail. -/
lemma substep_traces_extend (s : Sliders) (Vv Vh t : ℝ) (p : Electron × List TraceEvent)
    (hcap : p.2.length + 1 ≤ 5000) :
    ∃ l0 : List TraceEvent, (Simul.physicsSubstep s Vv Vh t p).2 = p.2 ++ l0 ∧
      (Simul.physicsSubstep s Vv Vh t p).2.length ≤ p.2.length + 1 := by
  simp only [Simul.physicsSubstep]
  split
  · split
    · rw [pushBounded_of_lt 5000 p.2 _ hcap]
      exact ⟨_, rfl, by simp⟩
    · exact ⟨[], by simp, by simp⟩
  · exact ⟨[], by simp, by simp⟩

/-- Helper: as long as capacity is not reached, iterating sub-steps only
ever appends to the trace buffer — existing events survive in place. -/
lemma iterate_traces_extend (s : Sliders) (Vv Vh t : ℝ) (n : ℕ) :
    ∀ p : Electron × List TraceEvent, p.2.length + n ≤ 5000 →
      ∃ l : List TraceEvent, ((Simul.physicsSubstep s Vv Vh t)^[n] p).2 = p.2 ++ l := by
  induction n with
  | zero => intro p h; exact ⟨[], by simp⟩
  | succ n ih =>
    intro p h
    obtain ⟨l0, hl0, hlen⟩ := substep_traces_extend s Vv Vh t p (by omega)
    obtain ⟨l, hl⟩ := ih (Simul.physicsSubstep s Vv Vh t p) (by omega)
    rw [Function.iterate_succ_apply]
    exact ⟨l0 ++ l, by rw [hl, hl0, List.append_assoc]⟩

/-- Helper: one frame with a fresh manual-mode state records at least one
trace event, whose timestamp is the wall-clock reading of that frame. -/
lemma runFrames_single_traces (elapsed : ℝ) :
    ∃ l : List TraceEvent, (Simul.runFrames sliders0 [elapsed] state0).screen_traces =
      { x := 0, y := 0, time := elapsed, brightness := (1 : ℝ) / 2 } :: l := by
  have hframe : (Simul.runFrames sliders0 [elapsed] state0).screen_traces =
      (Simul.update_physics sliders0 elapsed state0).screen_traces := by
    simp only [Simul.runFrames, List.foldl, Simul.frame]
    split <;> rfl
  have hup : (Simul.update_physics sliders0 elapsed state0).screen_traces =
      ((Simul.physicsSubstep sliders0 0 0 elapsed)^[100]
        (Simul.Electron.reset, ([] : List TraceEvent))).2 := by
    simp only [Simul.update_physics]
    rw [if_neg (by norm_num [state0])]
    simp [state0, Simul.get_voltages, sliders0]
  have hsplit : ((Simul.physicsSubstep sliders0 0 0 elapsed)^[100]
      (Simul.Electron.reset, ([] : List TraceEvent))) =
      (Simul.physicsSubstep sliders0 0 0 elapsed)^[93]
        ((Simul.physicsSubstep sliders0 0 0 elapsed)^[7]
          (Simul.Electron.reset, ([] : List TraceEvent))) := by
    rw [← Function.iterate_add_apply]
  obtain ⟨l, hl⟩ := iterate_traces_extend sliders0 0 0 elapsed 93
    (Simul.Electron.reset,
      [{ x := 0, y := 0, time := elapsed, brightness := (1 : ℝ) / 2 }]) (by norm_num)
  refine ⟨l, ?_⟩
  rw [hframe, hup, hsplit, run7 elapsed []]
  rw [pushBounded_of_lt 5000 ([] : List TraceEvent)
      { x := 0, y := 0, time := elapsed, brightness := (1 : ℝ) / 2 } (by norm_num)]
  rw [show (([] : List TraceEvent) ++
      [{ x := 0, y := 0, time := elapsed, brightness := (1 : ℝ) / 2 }]) =
      [{ x := 0, y := 0, time := elapsed, brightness := (1 : ℝ) / 2 }] by simp]
  rw [hl]
  simp

/-- C1 counterexample: two runs from the same initial state with the same
configuration, the same `dt` and sub-step count, and one tick each,
differing only in the wall-clock reading `clock.get_time()` taken inside
`update_physics` (0 ms vs 16 ms), produce different trace-event
sequences — the recorded timestamps differ — so the core does contain a
wall-clock read that the tick count alone does not determine. -/
theorem wall_clock_nondeterminism_counterexample :
    (Simul.runFrames sliders0 [0] state0).screen_traces ≠
      (Simul.runFrames sliders0 [16] state0).screen_traces := by
  obtain ⟨lA, hA⟩ := runFrames_single_traces 0
  obtain ⟨lB, hB⟩ := runFrames_single_traces 16
  intro h
  rw [hA, hB] at h
  simp only [List.cons.injEq, TraceEvent.mk.injEq] at h
  norm_num at h

/-- Helper: the electron component of a sub-step ignores the tick time
and the trace buffer. -/
lemma substep_fst (s : Sliders) (Vv Vh t : ℝ) (p : Electron × List TraceEvent) :
    (Simul.physicsSubstep s Vv Vh t p).1 = Simul.electronStep s Vv Vh p.1 := by
  simp only [Simul.physicsSubstep, Simul.electronStep]
  split_ifs <;> rfl

/-- Helper: iterated sub-steps evolve the electron like iterated
`electronStep`, independently of the tick time and the traces. -/
lemma iterate_substep_fst (s : Sliders) (Vv Vh t : ℝ) (n : ℕ) :
    ∀ p : Electron × List TraceEvent,
      ((Simul.physicsSubstep s Vv Vh t)^[n] p).1 = (Simul.electronStep s Vv Vh)^[n] p.1 := by
  induction n with
  | zero => intro p; rfl
  | succ n ih =>
    intro p
    rw [Function.iterate_succ_apply, Function.iterate_succ_apply, ih, substep_fst]

/-- Helper: `update_physics` does not change the mode. -/
lemma update_physics_mode (s : Sliders) (elapsed : ℝ) (st : SimState) :
    (Simul.update_physics s elapsed st).mode = st.mode := by
  simp only [Simul.update_physics]
  split <;> rfl

/-- Helper: `update_physics` does not change the speed flag. -/
lemma update_physics_speed (s : Sliders) (elapsed : ℝ) (st : SimState) :
    (Simul.update_physics s elapsed st).simulation_speed = st.simulation_speed := by
  simp only [Simul.update_physics]
  split <;> rfl

/-- Helper: in manual mode the electron after `update_physics` depends
only on the sliders, the speed flag and the previous electron — not on
the wall-clock reading. -/
lemma update_physics_electron_manual (s : Sliders) (elapsed : ℝ) (st : SimState)
    (hm : st.mode = Mode.manual) :
    (Simul.update_physics s elapsed st).electron =
      if st.simulation_speed = 0 then st.electron
      else (Simul.electronStep s s.vertical_voltage s.horizontal_voltage)^[100]
        st.electron := by
  simp only [Simul.update_physics, hm]
  split_ifs with h
  · rfl
  · exact iterate_substep_fst s s.vertical_voltage s.horizontal_voltage _ 100 _

/-- Helper: `frame` does not change the mode. -/
lemma frame_mode (s : Sliders) (elapsed : ℝ) (st : SimState) :
    (Simul.frame s elapsed st).mode = st.mode := by
  simp only [Simul.frame]
  split
  · exact update_physics_mode s elapsed st
  · exact update_physics_mode s elapsed st

/-- Helper: `frame` does not change the speed flag. -/
lemma frame_speed (s : Sliders) (elapsed : ℝ) (st : SimState) :
    (Simul.frame s elapsed st).simulation_speed = st.simulation_speed := by
  simp only [Simul.frame]
  split
  · exact update_physics_speed s elapsed st
  · exact update_physics_speed s elapsed st

/-- Helper: in manual mode the electron after one frame is independent of
the wall-clock reading. -/
lemma frame_electron_manual (s : Sliders) (elapsed : ℝ) (st : SimState)
    (hm : st.mode = Mode.manual) :
    (Simul.frame s elapsed st).electron =
      if st.simulation_speed = 0 then st.electron
      else (Simul.electronStep s s.vertical_voltage s.horizontal_voltage)^[100]
        st.electron := by
  simp only [Simul.frame]
  split
  · exact update_physics_electron_manual s elapsed st hm
  · exact update_physics_electron_manual s elapsed st hm

/-- Helper: two manual-mode runs with the same number of frames, the same
speed flag and the same starting electron end with the same electron,
whatever the wall-clock readings were. -/
lemma runFrames_electron_manual (s : Sliders) :
    ∀ (els1 els2 : List ℝ) (st1 st2 : SimState), els1.length = els2.length →
      st1.mode = Mode.manual → st2.mode = Mode.manual →
      st1.simulation_speed = st2.simulation_speed → st1.electron = st2.electron →
      (Simul.runFrames s els1 st1).electron = (Simul.runFrames s els2 st2).electron := by
  intro els1
  induction els1 with
  | nil =>
    intro els2 st1 st2 hlen hm1 hm2 hsp he
    have : els2 = [] := List.length_eq_zero.mp hlen.symm
    subst this
    exact he
  | cons e1 t1 ih =>
    intro els2 st1 st2 hlen hm1 hm2 hsp he
    match els2 with
    | [] => exact absurd hlen (by simp)
    | e2 :: t2 =>
      show (Simul.runFrames s t1 (Simul.frame s e1 st1)).electron =
        (Simul.runFrames s t2 (Simul.frame s e2 st2)).electron
      apply ih t2 (Simul.frame s e1 st1) (Simul.frame s e2 st2)
      · simpa using hlen
      · rw [frame_mode]; exact hm1
      · rw [frame_mode]; exact hm2
      · rw [frame_speed, frame_speed, hsp]
      · rw [frame_electron_manual s e1 st1 hm1, frame_electron_manual s e2 st2 hm2,
          hsp, he]

/-- C1 amended: the per-frame transition is deterministic once the
wall-clock readings taken by `clock.get_time()` are counted among the
inputs — runs with identical configuration and identical reading
sequences coincide exactly; moreover, in manual mode the particle
trajectory itself is already determined by the configuration and the
number of ticks alone (only trace timestamps depend on the readings). -/
theorem determinism_relative_to_clock :
    (∀ (s : Sliders) (els1 els2 : List ℝ) (st : SimState), els1 = els2 →
      Simul.runFrames s els1 st = Simul.runFrames s els2 st) ∧
    (∀ (s : Sliders) (st : SimState) (els1 els2 : List ℝ), st.mode = Mode.manual →
      els1.length = els2.length →
      (Simul.runFrames s els1 st).electron = (Simul.runFrames s els2 st).electron) := by
  constructor
  · intro s els1 els2 st h
    rw [h]
  · intro s st els1 els2 hm hlen
    exact runFrames_electron_manual s els1 els2 st st hlen hm hm rfl rfl

/-- Witness for C1 amended: identical reading sequences give identical
runs, and with the initial manual-mode state the electron after one tick
is the same whether the frame reading was 0 ms or 16 ms. -/
theorem determinism_relative_to_clock_witness :
    Simul.runFrames sliders0 [5] state0 = Simul.runFrames sliders0 [5] state0 ∧
    state0.mode = Mode.manual ∧
    (Simul.runFrames sliders0 [0] state0).electron =
      (Simul.runFrames sliders0 [16] state0).electron :=
  ⟨determinism_relative_to_clock.1 sliders0 [5] [5] state0 rfl, rfl,
   determinism_relative_to_clock.2 sliders0 state0 [0] [16] rfl rfl⟩

end

end CRT
